import Mathlib

/-!
Verification development for the chocopi realtime voice-conversation engine.

The definitions below are a shallow embedding of the Python sources:
  - audio.py   (AudioManager: capture streams, playback handles, gain/clip)
  - conversation.py (ConversationSession: protocol state machine, upload queue,
    barge-in, fuzzy sleep-word matching, timeouts, cleanup)
  - memory.py  (session memory: bounded per-type recent item lists)
Machine integers are modelled as Int/Nat, float samples as ℚ, byte strings as
abstract Nat tokens, and the asyncio event loop as explicit state passing over
event traces.
-/

namespace Chocopi

/-! ### AudioManager (audio.py) -/

/-- `INT16_MIN = np.iinfo(np.int16).min` (audio.py line 10). -/
def INT16_MIN : Int := -32768

/-- `INT16_MAX = np.iinfo(np.int16).max` (audio.py line 11). -/
def INT16_MAX : Int := 32767

/-- A simpleaudio playback handle (`self.play_obj`); `playing` is what its
`is_playing()` method reports. -/
structure PlayObj where
  playing : Bool
deriving DecidableEq, Repr

/-- The `AudioManager` instance state (audio.py lines 16-21): the current
input stream (tagged by a fresh id standing for the sounddevice handle) and
the last playback object.  `next_stream` is the model's supply of fresh
stream ids. -/
structure AudioManager where
  input_stream : Option Nat
  next_stream : Nat
  play_obj : Option PlayObj
deriving DecidableEq, Repr

/-- Fresh `AudioManager()` (audio.py lines 19-21, 101). -/
def AudioManager.init : AudioManager :=
  { input_stream := none, next_stream := 0, play_obj := none }

/-- Observable device-level actions on input streams, in the order the code
performs them: `stream.stop()`, `stream.close()`, `sd.InputStream(...)`
(opening the device handle), `stream.start()`. -/
inductive StreamEvent
  | stopStream (id : Nat)
  | closeStream (id : Nat)
  | openStream (id : Nat)
  | startStream (id : Nat)
deriving DecidableEq, Repr

/-- `AudioManager.start_recording` (audio.py lines 23-54): if an input stream
exists it is stopped and closed first, then a new device handle is opened and
started.  Returns the new state and the emitted device actions in program
order. -/
def AudioManager.start_recording (m : AudioManager) : AudioManager × List StreamEvent :=
  let pre : List StreamEvent :=
    match m.input_stream with
    | some s => [StreamEvent.stopStream s, StreamEvent.closeStream s]
    | none => []
  ({ m with input_stream := some m.next_stream, next_stream := m.next_stream + 1 },
    pre ++ [StreamEvent.openStream m.next_stream, StreamEvent.startStream m.next_stream])

/-- `AudioManager.stop_recording` (audio.py lines 56-61): stop and close the
input stream if present, then forget it. -/
def AudioManager.stop_recording (m : AudioManager) : AudioManager × List StreamEvent :=
  match m.input_stream with
  | some s =>
      ({ m with input_stream := none }, [StreamEvent.stopStream s, StreamEvent.closeStream s])
  | none => (m, [])

/-- `AudioManager.start_playing` (audio.py lines 63-81): installs a fresh,
playing playback object (decode/device failures are logged and swallowed). -/
def AudioManager.start_playing (m : AudioManager) : AudioManager :=
  { m with play_obj := some { playing := true } }

/-- `AudioManager.stop_playing` (audio.py lines 83-90): calls
`play_obj.stop()` only when a playback object exists and reports playing,
then always sets `play_obj = None`; exceptions are caught and logged, so the
function is total.  The second component counts `play_obj.stop()` calls. -/
def AudioManager.stop_playing (m : AudioManager) : AudioManager × Nat :=
  match m.play_obj with
  | some p =>
      if p.playing then ({ m with play_obj := none }, 1)
      else ({ m with play_obj := none }, 0)
  | none => ({ m with play_obj := none }, 0)

/-- `AudioManager.is_playing` (audio.py lines 92-97). -/
def AudioManager.is_playing (m : AudioManager) : Bool :=
  match m.play_obj with
  | some p => p.playing
  | none => false

/-- Device bookkeeping: the multiset of open input streams after a device
action. -/
def applyStreamEvent (openIds : List Nat) : StreamEvent → List Nat
  | StreamEvent.openStream i => openIds ++ [i]
  | StreamEvent.closeStream i => openIds.erase i
  | _ => openIds

/-- The largest number of simultaneously open input streams observed while
replaying a device-action trace from a given open set (the set itself
counts, so every intermediate point of the trace is inspected). -/
def maxOpenStreams (openIds : List Nat) : List StreamEvent → Nat
  | [] => openIds.length
  | e :: es => max openIds.length (maxOpenStreams (applyStreamEvent openIds e) es)

/-- The open input streams a consistent `AudioManager` state accounts for. -/
def streamsOf (m : AudioManager) : List Nat :=
  match m.input_stream with
  | some s => [s]
  | none => []

/-- Capture-control operations a client may issue on the manager. -/
inductive CaptureOp
  | record
  | stopRecord
deriving DecidableEq, Repr

/-- One capture-control operation. -/
def applyCaptureOp (m : AudioManager) : CaptureOp → AudioManager × List StreamEvent
  | CaptureOp.record => m.start_recording
  | CaptureOp.stopRecord => m.stop_recording

/-- A sequence of capture-control operations, with the concatenated
device-action trace. -/
def runCaptureOps (m : AudioManager) : List CaptureOp → AudioManager × List StreamEvent
  | [] => (m, [])
  | op :: ops =>
      let step := applyCaptureOp m op
      let rest := runCaptureOps step.1 ops
      (rest.1, step.2 ++ rest.2)

/-! ### Gain and clipping (audio.py gain_callback, lines 31-45) -/

/-- Truncation toward zero: the rounding `np.float32.astype(np.int16)`
performs on values already clipped into int16 range. -/
def truncToInt (q : ℚ) : Int := if 0 ≤ q then ⌊q⌋ else ⌈q⌉

/-- `np.clip(x, INT16_MIN, INT16_MAX)` on one sample. -/
def clip16 (x : ℚ) : ℚ := max ((INT16_MIN : ℚ)) (min ((INT16_MAX : ℚ)) x)

/-- What `gain_callback` hands to the registered consumer callback for one
frame: the processed samples and whether the clipping diagnostic fired. -/
structure GainFrame where
  samples : List Int
  clip_diagnostic : Bool
deriving DecidableEq, Repr

/-- `gain_callback` (audio.py lines 31-45) for the `int16` dtype that
`ConversationSession._listen` always configures (conversation.py line 134):
with a non-unit gain the samples are scaled in float, the max absolute value
is compared against `INT16_MAX` for the clipping diagnostic, and the frame is
clipped into int16 range and cast back; with unit gain the frame is passed
through unchanged. -/
def gain_callback (input_gain : ℚ) (indata : List Int) : GainFrame :=
  if input_gain ≠ 1 then
    let processed := indata.map (fun (s : Int) => (s : ℚ) * input_gain)
    let maxAbs := (processed.map (fun x => |x|)).foldl max 0
    { samples := processed.map (fun x => truncToInt (clip16 x)),
      clip_diagnostic := decide ((INT16_MAX : ℚ) < maxAbs) }
  else
    { samples := indata, clip_diagnostic := false }

/-! ### Session memory (memory.py) -/

/-- One entry of `memory["recent_items"]`. -/
structure MemItem where
  type : String
  text : String
deriving DecidableEq, Repr

/-- `MEMORY_TYPES` (memory.py line 13). -/
def MEMORY_TYPES : List String := ["joke", "vocab", "story", "fact", "topic"]

/-- `MAX_ITEMS_PER_TYPE` (memory.py lines 14-20); unknown types never reach
a lookup because `merge_summary` filters them out first. -/
def MAX_ITEMS_PER_TYPE : String → Nat
  | "joke" => 10
  | "vocab" => 20
  | "story" => 10
  | "fact" => 15
  | "topic" => 15
  | _ => 0

/-- `[item for item in l if item.get("type") == t]`. -/
def itemsOfType (t : String) (l : List MemItem) : List MemItem :=
  l.filter (fun i => i.type == t)

/-- The eviction loop of `_append_item` (memory.py lines 119-125): skip the
first `n` items of type `t`, keep everything else in order. -/
def removeFirstOfType (t : String) : Nat → List MemItem → List MemItem
  | _, [] => []
  | 0, l => l
  | n + 1, i :: rest =>
      if i.type == t then removeFirstOfType t n rest
      else i :: removeFirstOfType t (n + 1) rest

/-- `_append_item` (memory.py lines 112-125): append the new item, then if
the type now has more than `max_items` entries drop the oldest surplus
entries of that type. -/
def append_item (mem : List MemItem) (item_type text : String) (max_items : Nat) :
    List MemItem :=
  let l := mem ++ [{ type := item_type, text := text }]
  let cnt := (itemsOfType item_type l).length
  if max_items < cnt then removeFirstOfType item_type (cnt - max_items) l else l

/-- The `recent_items` part of one `merge_summary` call (memory.py lines
169-174): each summary item whose normalized type is recognized and whose
stripped text is nonempty is appended under the per-type cap; the rest are
skipped. -/
def merge_summary_items (mem : List MemItem) (items : List MemItem) : List MemItem :=
  items.foldl
    (fun acc it =>
      let t := it.type.trim.toLower
      let x := it.text.trim
      if t ≠ "" ∧ x ≠ "" ∧ t ∈ MEMORY_TYPES then
        append_item acc t x (MAX_ITEMS_PER_TYPE t)
      else acc)
    mem

/-- The operations of the claim: a raw `_append_item` under the configured
per-type cap, or a `merge_summary` batch. -/
inductive MemOp
  | append (item_type text : String)
  | merge (items : List MemItem)

/-- One memory operation. -/
def applyMemOp (mem : List MemItem) : MemOp → List MemItem
  | MemOp.append t x => append_item mem t x (MAX_ITEMS_PER_TYPE t)
  | MemOp.merge items => merge_summary_items mem items

/-- A sequence of memory operations. -/
def applyMemOps (mem : List MemItem) (ops : List MemOp) : List MemItem :=
  ops.foldl applyMemOp mem

/-- The items an operation appends, in order (independent of the state). -/
def opAppends : MemOp → List MemItem
  | MemOp.append t x => [{ type := t, text := x }]
  | MemOp.merge items =>
      items.foldr
        (fun it acc =>
          let t := it.type.trim.toLower
          let x := it.text.trim
          if t ≠ "" ∧ x ≠ "" ∧ t ∈ MEMORY_TYPES then { type := t, text := x } :: acc
          else acc)
        []

/-- All items appended by a sequence of operations. -/
def opAppendsAll : List MemOp → List MemItem
  | [] => []
  | op :: ops => opAppends op ++ opAppendsAll ops

/-- Every memory type is within its configured cap. -/
def memBounded (mem : List MemItem) : Prop :=
  ∀ t ∈ MEMORY_TYPES, (itemsOfType t mem).length ≤ MAX_ITEMS_PER_TYPE t

/-! ### Upload pipeline (conversation.py _listen / _send_audio) -/

/-- A python `queue.Queue`: construction argument `maxsize`, where 0 means
unbounded — the default used at conversation.py line 48. -/
structure PyQueue (α : Type) where
  maxsize : Nat
  items : List α
deriving DecidableEq, Repr

/-- The upload queue exactly as constructed: `queue.Queue()` with no
maxsize argument, i.e. maxsize 0 (unbounded). -/
def audioQueueInit : PyQueue Nat := { maxsize := 0, items := [] }

/-- `put_nowait`: raises `queue.Full` (second component true) only when the
queue is bounded and at capacity; never blocks. -/
def PyQueue.put_nowait {α : Type} (q : PyQueue α) (x : α) : PyQueue α × Bool :=
  if 0 < q.maxsize ∧ q.maxsize ≤ q.items.length then (q, true)
  else ({ q with items := q.items ++ [x] }, false)

/-- `get_nowait` as used behind the `empty()` check of `_send_audio`. -/
def PyQueue.get_nowait {α : Type} (q : PyQueue α) : Option α × PyQueue α :=
  match q.items with
  | [] => (none, q)
  | x :: rest => (some x, { q with items := rest })

/-- The upload pipeline: the queue, the frames the capture callback offered
in capture order, the count of frames dropped on overflow, and the frames
the consumer has sent. -/
structure UploadPipeline where
  queue : PyQueue Nat
  offered : List Nat
  dropped : Nat
  sent : List Nat
deriving DecidableEq, Repr

/-- Fresh pipeline around the session's queue. -/
def uploadInit : UploadPipeline :=
  { queue := audioQueueInit, offered := [], dropped := 0, sent := [] }

/-- Pipeline steps: a capture-callback invocation while the session is
active (conversation.py lines 121-130), or one `_send_audio` loop iteration
(conversation.py lines 142-152). -/
inductive UploadOp
  | capture (frame : Nat)
  | consume
deriving DecidableEq, Repr

/-- One pipeline step: the producer enqueues without blocking and drops the
incoming frame (with a warning) if `put_nowait` raised Full; the consumer
sends the head frame when the queue is non-empty. -/
def applyUploadOp (st : UploadPipeline) : UploadOp → UploadPipeline
  | UploadOp.capture f =>
      let res := st.queue.put_nowait f
      if res.2 then
        { st with offered := st.offered ++ [f], dropped := st.dropped + 1 }
      else
        { st with queue := res.1, offered := st.offered ++ [f] }
  | UploadOp.consume =>
      match st.queue.get_nowait with
      | (some f, q) => { st with queue := q, sent := st.sent ++ [f] }
      | (none, _) => st

/-- A sequence of pipeline steps. -/
def runUploadOps (st : UploadPipeline) (ops : List UploadOp) : UploadPipeline :=
  ops.foldl applyUploadOp st

/-! ### Fuzzy sleep-word matching (conversation.py _is_sleep_word) -/

/-- One inner step of the longest-common-subsequence DP row update. -/
def lcsNextRow (c : Char) : List Char → List Nat → Nat → List Nat
  | b :: bs, p0 :: p1 :: ps, left =>
      let v := if b = c then p0 + 1 else max left p1
      v :: lcsNextRow c bs (p1 :: ps) v
  | _, _, _ => []

/-- Longest common subsequence length of two character lists, computed row
by row. -/
def lcsLen (as bs : List Char) : Nat :=
  (as.foldl (fun row c => 0 :: lcsNextRow c bs row 0)
    (List.replicate (bs.length + 1) 0)).getLastD 0

/-- Modelled from the rapidfuzz library: `fuzz.ratio`, the normalized indel
similarity on a 0-100 scale, which for indel distance equals
200·LCS(a,b)/(|a|+|b|); two empty strings score 100. -/
def fuzzRatio (a b : List Char) : ℚ :=
  if a.length + b.length = 0 then 100
  else (200 * lcsLen a b : ℚ) / ((a.length : ℚ) + (b.length : ℚ))

/-- All contiguous substrings of a character list. -/
def substrings (l : List Char) : List (List Char) :=
  (l.tails.map List.inits).flatten

/-- Modelled from the rapidfuzz library: `fuzz.partial_ratio(s1, s2)`, the
best `fuzz.ratio` between the shorter of the two strings and a contiguous
substring of the longer one. -/
def bestPartialRatio (a b : List Char) : ℚ :=
  let s := if a.length ≤ b.length then a else b
  let l := if a.length ≤ b.length then b else a
  (substrings l).foldl (fun acc sub => max acc (fuzzRatio s sub)) 0

/-- Python `str.strip()` whitespace on both ends. -/
def trimChars (l : List Char) : List Char :=
  let ws : Char → Bool := fun c => c == ' ' || c == '\t' || c == '\n' || c == '\r'
  ((l.dropWhile ws).reverse.dropWhile ws).reverse

/-- `text.strip().lower()` followed by `re.sub(r'[,.!?]', '', ·)`
(conversation.py line 181). -/
def normalizeTranscript (text : List Char) : List Char :=
  ((trimChars text).map Char.toLower).filter
    (fun c => !(c == ',' || c == '.' || c == '!' || c == '?'))

/-- `_is_sleep_word` (conversation.py lines 175-186): lowercase the
configured sleep word, return false when either the transcript or the sleep
word is empty, normalize the transcript, then compare the partial-ratio
similarity against the threshold. -/
def is_sleep_word (sleep_word text : List Char) (threshold : ℚ) : Bool :=
  let sw := sleep_word.map Char.toLower
  if text.isEmpty || sw.isEmpty then false
  else decide (threshold ≤ bestPartialRatio sw (normalizeTranscript text))

/-! ### Conversation session state machine (conversation.py) -/

/-- The configuration the session reads from CONFIG: the two receive
timeouts (seconds), and the sleep word with its fuzzy threshold. -/
structure Cfg where
  greeting_timeout : ℚ
  conversation_timeout : ℚ
  sleep_word : List Char
  sleep_word_threshold : ℚ

/-- `ConversationSession.Result` (conversation.py lines 30-34). -/
inductive Result
  | greeted
  | goodbye
  | error
deriving DecidableEq, Repr

/-- Inbound Realtime API messages dispatched by `_handle_message`
(conversation.py lines 246-262); a response audio delta carries an abstract
chunk token, absent when the delta payload is empty. -/
inductive Msg
  | responseCreated
  | speechStarted
  | speechStopped
  | transcriptionCompleted (transcript : List Char)
  | outputAudioDelta (chunk : Option Nat)
  | outputTranscriptDone
  | responseDone
  | errorEvent
  | other
deriving DecidableEq, Repr

/-- The observable state of one `ConversationSession.run` call: the session
flags and response buffer, the shared AudioManager, and counters for the
externally visible effects. -/
structure RunState where
  connected : Bool
  is_active : Bool
  is_greeting : Bool
  is_terminating : Bool
  is_response_pending : Bool
  response_chunks : List Nat
  audio : AudioManager
  start_recording_calls : Nat
  stop_recording_calls : Nat
  start_playing_calls : Nat
  stop_playing_calls : Nat
  upload_tasks_created : Nat
  upload_task_cancelled : Bool
  websocket_closed : Bool
  completion_poll_pending : Bool
  timeout_logged : Bool
  error_event_logged : Bool
  exception_logged : Bool
  memory_saved : Bool
  halted : Bool
deriving DecidableEq, Repr

/-- The session state right after `__init__` (conversation.py lines 46-53). -/
def initState : RunState :=
  { connected := false, is_active := true, is_greeting := true, is_terminating := false,
    is_response_pending := false, response_chunks := [], audio := AudioManager.init,
    start_recording_calls := 0, stop_recording_calls := 0, start_playing_calls := 0,
    stop_playing_calls := 0, upload_tasks_created := 0, upload_task_cancelled := false,
    websocket_closed := false, completion_poll_pending := false, timeout_logged := false,
    error_event_logged := false, exception_logged := false, memory_saved := false,
    halted := false }

/-- `AUDIO.stop_playing()` from the session, with call counting. -/
def RunState.doStopPlaying (st : RunState) : RunState :=
  { st with
    audio := (st.audio.stop_playing).1
    stop_playing_calls := st.stop_playing_calls + 1 }

/-- `AUDIO.start_playing(...)` from the session, with call counting. -/
def RunState.doStartPlaying (st : RunState) : RunState :=
  { st with
    audio := st.audio.start_playing
    start_playing_calls := st.start_playing_calls + 1 }

/-- `AUDIO.stop_recording()` from the session, with call counting. -/
def RunState.doStopRecording (st : RunState) : RunState :=
  { st with
    audio := (st.audio.stop_recording).1
    stop_recording_calls := st.stop_recording_calls + 1 }

/-- `AUDIO.start_recording(...)` via `_listen` (conversation.py lines
117-138), with call counting. -/
def RunState.doStartRecording (st : RunState) : RunState :=
  { st with
    audio := (st.audio.start_recording).1
    start_recording_calls := st.start_recording_calls + 1 }

/-- `_play_response` (conversation.py lines 154-173): when chunks are
buffered, playback of the joined buffer starts; during greeting or goodbye
the coroutine awaits the completion poll inline (playback runs to its end
and the buffer is cleared before returning), otherwise the completion poll
is spawned as a background task and the buffer stays until it fires. -/
def playResponse (st : RunState) : RunState :=
  if st.response_chunks = [] then st
  else
    let st1 := st.doStartPlaying
    if st1.is_greeting ∨ st1.is_terminating then
      { st1 with
        audio := { st1.audio with play_obj := some { playing := false } }
        response_chunks := [] }
    else { st1 with completion_poll_pending := true }

/-- The tail of the `playback_completion` poller (conversation.py lines
161-167) once `AUDIO.is_playing()` has turned false: it clears the response
buffer. -/
def playbackCompletion (st : RunState) : RunState :=
  { st with response_chunks := [], completion_poll_pending := false }

/-- `_on_speech_started` (conversation.py lines 191-195): stop playback and
clear the display speaking flag; nothing else. -/
def onSpeechStarted (st : RunState) : RunState := st.doStopPlaying

/-- `_on_speech_stopped` (conversation.py lines 197-199): play the
acknowledgement cue. -/
def onSpeechStopped (st : RunState) : RunState := st.doStartPlaying

/-- `_on_transcription_completed` + `_build_response_instructions`
(conversation.py lines 201-206, 277-291): a sleep-word match sets the
terminating flag and requests a goodbye response; otherwise a normal
response is requested. -/
def onTranscriptionCompleted (cfg : Cfg) (st : RunState) (transcript : List Char) : RunState :=
  if is_sleep_word cfg.sleep_word transcript cfg.sleep_word_threshold then
    { st with is_terminating := true }
  else st

/-- `_on_output_audio_delta` (conversation.py lines 208-211): a non-empty
delta is appended to the response buffer. -/
def onOutputAudioDelta (st : RunState) (chunk : Option Nat) : RunState :=
  match chunk with
  | some c => { st with response_chunks := st.response_chunks ++ [c] }
  | none => st

/-- `_on_response_done` (conversation.py lines 217-229). -/
def onResponseDone (st : RunState) : RunState × Option Result :=
  let st1 := { st with is_response_pending := false }
  let st2 := playResponse st1
  if st2.is_greeting then (st2, some Result.greeted)
  else if st2.is_terminating then (st2.doStopRecording, some Result.goodbye)
  else (st2, none)

/-- `_on_error` (conversation.py lines 231-235). -/
def onError (st : RunState) : RunState × Option Result :=
  (({ st with is_active := false, error_event_logged := true }).doStopRecording,
    some Result.error)

/-- `_handle_message` (conversation.py lines 237-264). -/
def handleMessage (cfg : Cfg) (st : RunState) : Msg → RunState × Option Result
  | Msg.responseCreated => ({ st with is_response_pending := true }, none)
  | Msg.speechStarted => (onSpeechStarted st, none)
  | Msg.speechStopped => (onSpeechStopped st, none)
  | Msg.transcriptionCompleted t => (onTranscriptionCompleted cfg st t, none)
  | Msg.outputAudioDelta c => (onOutputAudioDelta st c, none)
  | Msg.outputTranscriptDone => (st, none)
  | Msg.responseDone => onResponseDone st
  | Msg.errorEvent => onError st
  | Msg.other => (st, none)

/-- What one receive in the `while self.is_active` loop can yield: a parsed
message, an `asyncio.TimeoutError`, or any other exception raised while
sending or receiving over the connection. -/
inductive LoopEvent
  | msg (m : Msg)
  | timeout
  | exn
deriving DecidableEq, Repr

/-- Whether the receive loop is still running. -/
def RunState.looping (st : RunState) : Bool := st.is_active && !st.halted

/-- One iteration of the receive loop (conversation.py lines 300-327):
dispatch the message, then the greeting-to-listening transition (start
capture synchronously, spawn the upload consumer task) and the exit
conditions; a timeout logs and deactivates; an exception escapes the loop
into the outer handler, which logs it. -/
def loopStep (cfg : Cfg) (st : RunState) : LoopEvent → RunState
  | LoopEvent.msg m =>
      let hr := handleMessage cfg st m
      let st1 := hr.1
      if st1.is_greeting ∧ hr.2 = some Result.greeted then
        let st2 := st1.doStartRecording
        { st2 with
          is_greeting := false
          upload_tasks_created := st2.upload_tasks_created + 1 }
      else if hr.2 = some Result.goodbye ∨ hr.2 = some Result.error then
        { st1 with is_active := false, halted := true }
      else st1
  | LoopEvent.timeout =>
      { st with is_active := false, timeout_logged := true, halted := true }
  | LoopEvent.exn =>
      { st with halted := true, exception_logged := true }

/-- The receive loop: process events while `is_active` holds and the loop
has not been broken or aborted by an exception. -/
def runLoop (cfg : Cfg) (st : RunState) : List LoopEvent → RunState
  | [] => st
  | e :: es =>
      if st.looping then runLoop cfg (loopStep cfg st e) es
      else st

/-- `connect` (conversation.py lines 66-85) succeeding: the websocket is
connected, the session config and the greeting response request are sent. -/
def connectStep (st : RunState) : RunState := { st with connected := true }

/-- The `finally` cleanup of `run` (conversation.py lines 331-355): save
memory, stop recording, cancel the upload consumer task if one was created,
and close the websocket if connected.  Playback is not touched here. -/
def cleanup (st : RunState) : RunState :=
  let st1 := { st with memory_saved := true }
  let st2 := st1.doStopRecording
  let st3 :=
    if 0 < st2.upload_tasks_created then { st2 with upload_task_cancelled := true } else st2
  if st3.connected then { st3 with websocket_closed := true } else st3

/-- One whole `ConversationSession.run` with a successful connect and the
given receive-loop events; the `finally` block always runs. -/
def runSession (cfg : Cfg) (events : List LoopEvent) : RunState :=
  cleanup (runLoop cfg (connectStep initState) events)

/-- The spec's session phase, derived from the session flags. -/
inductive Phase
  | connecting
  | greeting
  | listening
  | closed
deriving DecidableEq, Repr

/-- Phase projection: not yet connected, loop ended, greeting, listening. -/
def RunState.phase (st : RunState) : Phase :=
  if !st.connected then Phase.connecting
  else if !st.looping then Phase.closed
  else if st.is_greeting then Phase.greeting
  else Phase.listening

/-- The receive-timeout selection (conversation.py line 303). -/
def timeoutFor (cfg : Cfg) (st : RunState) : ℚ :=
  if st.is_greeting then cfg.greeting_timeout else cfg.conversation_timeout

/-- A demonstration configuration matching the claims' examples: sleep word
"good night", threshold 85. -/
def cfgDemo : Cfg :=
  { greeting_timeout := 10, conversation_timeout := 300,
    sleep_word := "good night".toList, sleep_word_threshold := 85 }

/-- A listening-phase state with one buffered response chunk. -/
def bargeInState : RunState :=
  { connectStep initState with is_greeting := false, response_chunks := [7] }

/-- A trace that leaves playback running when the connection raises. -/
def playbackTrace : List LoopEvent :=
  [LoopEvent.msg Msg.responseDone, LoopEvent.msg (Msg.outputAudioDelta (some 7)),
    LoopEvent.msg Msg.responseDone, LoopEvent.exn]

/-- A listening-phase state (after the greeting transition). -/
def listeningState : RunState := { connectStep initState with is_greeting := false }


/-! ## Proof development -/

/-! ### Lemmas: at most one open capture stream (C7) -/

lemma length_le_maxOpenStreams (openIds : List Nat) (l : List StreamEvent) :
    openIds.length ≤ maxOpenStreams openIds l := by
  cases l with
  | nil => simp [maxOpenStreams]
  | cons e es => exact le_max_left _ _

lemma maxOpenStreams_append (l₁ l₂ : List StreamEvent) (openIds : List Nat) :
    maxOpenStreams openIds (l₁ ++ l₂) =
      max (maxOpenStreams openIds l₁) (maxOpenStreams (l₁.foldl applyStreamEvent openIds) l₂) := by
  induction l₁ generalizing openIds with
  | nil =>
      simp only [List.nil_append, maxOpenStreams, List.foldl_nil]
      exact (max_eq_right (length_le_maxOpenStreams _ _)).symm
  | cons e es ih =>
      simp only [List.cons_append, maxOpenStreams, List.foldl_cons, List.append_eq, ih, max_assoc]

lemma applyCaptureOp_invariant (m : AudioManager) (op : CaptureOp) :
    maxOpenStreams (streamsOf m) (applyCaptureOp m op).2 ≤ 1 ∧
      (applyCaptureOp m op).2.foldl applyStreamEvent (streamsOf m) =
        streamsOf (applyCaptureOp m op).1 := by
  cases op <;> cases h : m.input_stream <;>
    simp [applyCaptureOp, AudioManager.start_recording, AudioManager.stop_recording,
      streamsOf, maxOpenStreams, applyStreamEvent, h]

lemma runCaptureOps_invariant (ops : List CaptureOp) (m : AudioManager) :
    maxOpenStreams (streamsOf m) (runCaptureOps m ops).2 ≤ 1 ∧
      (runCaptureOps m ops).2.foldl applyStreamEvent (streamsOf m) =
        streamsOf (runCaptureOps m ops).1 := by
  induction ops generalizing m with
  | nil =>
      refine ⟨?_, by simp [runCaptureOps]⟩
      cases h : m.input_stream <;> simp [runCaptureOps, maxOpenStreams, streamsOf, h]
  | cons op ops ih =>
      have hop := applyCaptureOp_invariant m op
      have hrest := ih (applyCaptureOp m op).1
      simp only [runCaptureOps]
      rw [maxOpenStreams_append, List.foldl_append, hop.2]
      exact ⟨max_le hop.1 hrest.1, hrest.2⟩

/-- C7: starting a new capture session while a previous input stream exists
first fully stops and closes the previous stream before the new device handle
is opened (the emitted device-action trace is exactly stop, close, open,
start), and across any sequence of capture operations from a fresh manager at
most one input stream is ever open at any point. -/
theorem C7_single_open_capture_stream :
    (∀ ops : List CaptureOp, maxOpenStreams [] (runCaptureOps AudioManager.init ops).2 ≤ 1) ∧
      ∀ (m : AudioManager) (s : Nat), m.input_stream = some s →
        (m.start_recording).2 =
          [StreamEvent.stopStream s, StreamEvent.closeStream s,
            StreamEvent.openStream m.next_stream, StreamEvent.startStream m.next_stream] := by
  constructor
  · intro ops
    have h := (runCaptureOps_invariant ops AudioManager.init).1
    simpa [streamsOf, AudioManager.init] using h
  · intro m s h
    simp [AudioManager.start_recording, h]

/-- Witness for C7 at a manager currently holding stream 0. -/
theorem C7_witness :
    ({ input_stream := some 0, next_stream := 1, play_obj := none } : AudioManager).input_stream
        = some 0 ∧
      (({ input_stream := some 0, next_stream := 1, play_obj := none } :
          AudioManager).start_recording).2 =
        [StreamEvent.stopStream 0, StreamEvent.closeStream 0,
          StreamEvent.openStream 1, StreamEvent.startStream 1] :=
  ⟨rfl, C7_single_open_capture_stream.2 _ 0 rfl⟩

/-! ### Lemmas: stop_playing (C9) -/

/-- C9 (amended): calling stop_playing while no playback is active performs
zero handle-stop calls (so the guarded `play_obj.stop()` cannot raise),
leaves playback inactive and the capture stream untouched, and clears the
stored handle; stop_playing is idempotent — a second consecutive call
returns the very same state and performs no further handle stops. -/
theorem C9_stop_playing_idempotent :
    (∀ m : AudioManager, m.is_playing = false →
        (m.stop_playing).2 = 0 ∧
          (m.stop_playing).1.is_playing = false ∧
          (m.stop_playing).1.input_stream = m.input_stream ∧
          (m.stop_playing).1.play_obj = none) ∧
      ∀ m : AudioManager, ((m.stop_playing).1).stop_playing = ((m.stop_playing).1, 0) := by
  constructor
  · intro m h
    match hp : m.play_obj with
    | none => simp [AudioManager.stop_playing, AudioManager.is_playing, hp]
    | some p =>
        have hfalse : p.playing = false := by
          simpa [AudioManager.is_playing, hp] using h
        simp [AudioManager.stop_playing, AudioManager.is_playing, hp, hfalse]
  · intro m
    cases hp : m.play_obj with
    | none => simp [AudioManager.stop_playing, hp]
    | some p => by_cases hP : p.playing <;> simp [AudioManager.stop_playing, hp, hP]

/-- Witness for C9 at a manager with no stored playback handle. -/
theorem C9_witness :
    AudioManager.is_playing { input_stream := none, next_stream := 0, play_obj := none } = false ∧
      ((AudioManager.stop_playing
          { input_stream := none, next_stream := 0, play_obj := none }).2 = 0 ∧
        (AudioManager.stop_playing
            { input_stream := none, next_stream := 0, play_obj := none }).1.is_playing = false ∧
        (AudioManager.stop_playing
            { input_stream := none, next_stream := 0, play_obj := none }).1.input_stream =
          ({ input_stream := none, next_stream := 0, play_obj := none } :
            AudioManager).input_stream ∧
        (AudioManager.stop_playing
            { input_stream := none, next_stream := 0, play_obj := none }).1.play_obj = none) :=
  ⟨rfl, C9_stop_playing_idempotent.1 _ rfl⟩

/-- C9 counterexample: with a finished (non-playing) playback handle still
stored, no playback is active, yet stop_playing changes the AudioManager
state — it clears the stored handle — refuting "leaves the state
unchanged" read literally over the stored fields. -/
theorem C9_counterexample :
    AudioManager.is_playing
        { input_stream := none, next_stream := 0, play_obj := some { playing := false } } =
      false ∧
      (AudioManager.stop_playing
          { input_stream := none, next_stream := 0, play_obj := some { playing := false } }).1 ≠
        { input_stream := none, next_stream := 0, play_obj := some { playing := false } } :=
  ⟨rfl, by decide⟩

/-! ### Lemmas: gain and clipping (C6) -/

lemma int16_min_le_max_q : (INT16_MIN : ℚ) ≤ (INT16_MAX : ℚ) := by
  norm_num [INT16_MIN, INT16_MAX]

lemma le_clip16 (x : ℚ) : (INT16_MIN : ℚ) ≤ clip16 x := by
  unfold clip16
  exact le_max_left _ _

lemma clip16_le (x : ℚ) : clip16 x ≤ (INT16_MAX : ℚ) := by
  unfold clip16
  exact max_le int16_min_le_max_q (min_le_left _ _)

lemma clip16_eq_self {x : ℚ} (h1 : (INT16_MIN : ℚ) ≤ x) (h2 : x ≤ (INT16_MAX : ℚ)) :
    clip16 x = x := by
  unfold clip16
  rw [min_eq_right h2, max_eq_right h1]

lemma truncToInt_range {x : ℚ} (h1 : (INT16_MIN : ℚ) ≤ x) (h2 : x ≤ (INT16_MAX : ℚ)) :
    INT16_MIN ≤ truncToInt x ∧ truncToInt x ≤ INT16_MAX := by
  unfold truncToInt
  by_cases h : 0 ≤ x
  · rw [if_pos h]
    constructor
    · have h0 : (0 : Int) ≤ ⌊x⌋ := Int.le_floor.mpr (by exact_mod_cast h)
      show (-32768 : Int) ≤ ⌊x⌋
      omega
    · have hf : (⌊x⌋ : ℚ) ≤ (INT16_MAX : ℚ) := le_trans (Int.floor_le x) h2
      exact_mod_cast hf
  · rw [if_neg h]
    constructor
    · have hc : (INT16_MIN : ℚ) ≤ (⌈x⌉ : ℚ) := le_trans h1 (Int.le_ceil x)
      exact_mod_cast hc
    · have h0 : ⌈x⌉ ≤ (0 : Int) := Int.ceil_le.mpr (by exact_mod_cast le_of_not_le h)
      show ⌈x⌉ ≤ (32767 : Int)
      omega

lemma init_le_foldl_max (l : List ℚ) (init : ℚ) : init ≤ l.foldl max init := by
  induction l generalizing init with
  | nil => exact le_refl _
  | cons b bs ih => exact le_trans (le_max_left _ _) (ih (max init b))

lemma mem_le_foldl_max (l : List ℚ) (init : ℚ) : ∀ a ∈ l, a ≤ l.foldl max init := by
  induction l generalizing init with
  | nil => intro a ha; cases ha
  | cons b bs ih =>
      intro a ha
      rcases List.mem_cons.mp ha with rfl | hmem
      · exact le_trans (le_max_right init a) (init_le_foldl_max bs (max init a))
      · exact ih (max init b) a hmem

lemma clip16_ne_imp_abs_gt {x : ℚ} (h : clip16 x ≠ x) : (INT16_MAX : ℚ) < |x| := by
  by_contra hc
  push_neg at hc
  apply h
  have h1 : x ≤ (INT16_MAX : ℚ) := le_trans (le_abs_self x) hc
  have h2 : (INT16_MIN : ℚ) ≤ x := by
    have hx : -(INT16_MAX : ℚ) ≤ x := le_trans (neg_le_neg hc) (neg_abs_le x)
    have hm : (INT16_MIN : ℚ) ≤ -(INT16_MAX : ℚ) := by norm_num [INT16_MIN, INT16_MAX]
    linarith
  exact clip16_eq_self h2 h1

/-- C6: for every gain g ≥ 0 and every int16-range input frame, the
gain-and-clip step of the capture callback produces samples inside the
representable int16 range (no overflow or wraparound), emits the clipping
diagnostic whenever any scaled sample was actually clipped, and hands the
consumer a frame of the same length. -/
theorem C6_gain_clip_in_range :
    ∀ g : ℚ, 0 ≤ g → ∀ indata : List Int,
      (∀ s ∈ indata, INT16_MIN ≤ s ∧ s ≤ INT16_MAX) →
      (∀ y ∈ (gain_callback g indata).samples, INT16_MIN ≤ y ∧ y ≤ INT16_MAX) ∧
        ((∃ x ∈ indata.map (fun (s : Int) => (s : ℚ) * g), clip16 x ≠ x) →
          (gain_callback g indata).clip_diagnostic = true) ∧
        (gain_callback g indata).samples.length = indata.length := by
  intro g hg indata hin
  by_cases hg1 : g = 1
  · subst hg1
    refine ⟨by simpa [gain_callback] using hin, ?_, by simp [gain_callback]⟩
    rintro ⟨x, hx, hne⟩
    exfalso
    rcases List.mem_map.mp hx with ⟨s, hs, heq⟩
    rcases hin s hs with ⟨hlo, hhi⟩
    apply hne
    rw [← heq]
    refine clip16_eq_self ?_ ?_
    · rw [mul_one]; exact_mod_cast hlo
    · rw [mul_one]; exact_mod_cast hhi
  · have hcond : g ≠ 1 := hg1
    refine ⟨?_, ?_, ?_⟩
    · intro y hy
      simp only [gain_callback, if_pos hcond, List.map_map] at hy
      rcases List.mem_map.mp hy with ⟨s, _, rfl⟩
      exact truncToInt_range (le_clip16 _) (clip16_le _)
    · rintro ⟨x, hx, hne⟩
      simp only [gain_callback, if_pos hcond]
      have habs : (INT16_MAX : ℚ) < |x| := clip16_ne_imp_abs_gt hne
      have hmem : |x| ∈ (indata.map (fun (s : Int) => (s : ℚ) * g)).map (fun x => |x|) :=
        List.mem_map.mpr ⟨x, hx, rfl⟩
      have hle := mem_le_foldl_max ((indata.map (fun (s : Int) => (s : ℚ) * g)).map (fun x => |x|)) 0 _ hmem
      simp only [decide_eq_true_eq]
      exact lt_of_lt_of_le habs hle
    · simp only [gain_callback, if_pos hcond, List.length_map]

/-- Witness for C6 at gain 2 on a frame whose first two samples clip. -/
theorem C6_witness :
    (0 : ℚ) ≤ 2 ∧
      (∀ s ∈ ([20000, -20000, 5] : List Int), INT16_MIN ≤ s ∧ s ≤ INT16_MAX) ∧
      ((∀ y ∈ (gain_callback 2 [20000, -20000, 5]).samples, INT16_MIN ≤ y ∧ y ≤ INT16_MAX) ∧
        ((∃ x ∈ ([20000, -20000, 5] : List Int).map (fun (s : Int) => (s : ℚ) * 2), clip16 x ≠ x) →
          (gain_callback 2 [20000, -20000, 5]).clip_diagnostic = true) ∧
        (gain_callback 2 [20000, -20000, 5]).samples.length =
          ([20000, -20000, 5] : List Int).length) :=
  ⟨by norm_num, by decide, C6_gain_clip_in_range 2 (by norm_num) _ (by decide)⟩

/-! ### Lemmas: bounded per-type memory (C10) -/

lemma itemsOfType_cons (t : String) (i : MemItem) (l : List MemItem) :
    itemsOfType t (i :: l) =
      if i.type == t then i :: itemsOfType t l else itemsOfType t l := by
  simp [itemsOfType, List.filter_cons]

lemma itemsOfType_append (t : String) (l₁ l₂ : List MemItem) :
    itemsOfType t (l₁ ++ l₂) = itemsOfType t l₁ ++ itemsOfType t l₂ := by
  simp [itemsOfType, List.filter_append]

lemma removeFirstOfType_sublist (t : String) (n : Nat) (l : List MemItem) :
    List.Sublist (removeFirstOfType t n l) l := by
  induction l generalizing n with
  | nil => cases n <;> simp [removeFirstOfType]
  | cons i rest ih =>
      cases n with
      | zero => simp [removeFirstOfType]
      | succ n =>
          by_cases h : i.type == t
          · simp only [removeFirstOfType, if_pos h]
            exact List.Sublist.cons _ (ih n)
          · simp only [removeFirstOfType, if_neg h]
            exact List.Sublist.cons₂ _ (ih (n + 1))

lemma itemsOfType_removeFirstOfType (t : String) (n : Nat) (l : List MemItem) :
    itemsOfType t (removeFirstOfType t n l) = (itemsOfType t l).drop n := by
  induction l generalizing n with
  | nil => cases n <;> simp [removeFirstOfType, itemsOfType]
  | cons i rest ih =>
      cases n with
      | zero => simp [removeFirstOfType]
      | succ n =>
          by_cases h : i.type == t
          · simp only [removeFirstOfType, if_pos h, itemsOfType_cons, ih,
              List.drop_succ_cons]
          · simp only [removeFirstOfType, if_neg h, itemsOfType_cons, ih, if_neg h]

lemma itemsOfType_removeFirstOfType_ne (t t' : String) (hne : t' ≠ t) (n : Nat)
    (l : List MemItem) :
    itemsOfType t' (removeFirstOfType t n l) = itemsOfType t' l := by
  induction l generalizing n with
  | nil => cases n <;> simp [removeFirstOfType]
  | cons i rest ih =>
      cases n with
      | zero => simp [removeFirstOfType]
      | succ n =>
          by_cases h : i.type == t
          · have ht : i.type = t := by simpa using h
            have h2 : ¬(i.type == t') = true := by
              simp only [beq_iff_eq, ht]
              exact fun hc => hne hc.symm
            simp only [removeFirstOfType, if_pos h, itemsOfType_cons, if_neg h2, ih]
          · simp only [removeFirstOfType, if_neg h, itemsOfType_cons, ih]

lemma itemsOfType_append_item_self (mem : List MemItem) (t x : String) (m : Nat) :
    itemsOfType t (append_item mem t x m) =
      (itemsOfType t (mem ++ [{ type := t, text := x }])).drop
        ((itemsOfType t (mem ++ [{ type := t, text := x }])).length - m) := by
  simp only [append_item]
  by_cases h : m < (itemsOfType t (mem ++ [{ type := t, text := x }])).length
  · rw [if_pos h, itemsOfType_removeFirstOfType]
  · rw [if_neg h]
    have h0 : (itemsOfType t (mem ++ [{ type := t, text := x }])).length - m = 0 := by omega
    rw [h0, List.drop_zero]

lemma countType_append_item_le (mem : List MemItem) (t x : String) (m : Nat) :
    (itemsOfType t (append_item mem t x m)).length ≤ m := by
  rw [itemsOfType_append_item_self, List.length_drop]
  omega

lemma itemsOfType_append_item_ne (mem : List MemItem) (t t' x : String) (hne : t' ≠ t)
    (m : Nat) :
    itemsOfType t' (append_item mem t x m) = itemsOfType t' mem := by
  have hfilter : itemsOfType t' (mem ++ [{ type := t, text := x }]) = itemsOfType t' mem := by
    have : ¬(({ type := t, text := x } : MemItem).type == t') = true := by
      simp
      exact fun hc => hne hc.symm
    simp [itemsOfType, List.filter_append, List.filter_cons, this]
  simp only [append_item]
  by_cases h : m < (itemsOfType t (mem ++ [{ type := t, text := x }])).length
  · rw [if_pos h, itemsOfType_removeFirstOfType_ne t t' hne, hfilter]
  · rw [if_neg h, hfilter]

lemma memBounded_append_item (mem : List MemItem) (t x : String) (h : memBounded mem) :
    memBounded (append_item mem t x (MAX_ITEMS_PER_TYPE t)) := by
  intro t' ht'
  by_cases he : t' = t
  · subst he
    exact countType_append_item_le _ _ _ _
  · rw [itemsOfType_append_item_ne _ _ _ _ he]
    exact h t' ht'

lemma memBounded_merge_summary_items (items : List MemItem) (mem : List MemItem)
    (h : memBounded mem) : memBounded (merge_summary_items mem items) := by
  induction items generalizing mem with
  | nil => simpa [merge_summary_items] using h
  | cons it rest ih =>
      simp only [merge_summary_items, List.foldl_cons] at *
      by_cases hc : it.type.trim.toLower ≠ "" ∧ it.text.trim ≠ "" ∧
          it.type.trim.toLower ∈ MEMORY_TYPES
      · rw [if_pos hc]
        exact ih _ (memBounded_append_item _ _ _ h)
      · rw [if_neg hc]
        exact ih _ h

lemma memBounded_applyMemOps (ops : List MemOp) (mem : List MemItem) (h : memBounded mem) :
    memBounded (applyMemOps mem ops) := by
  induction ops generalizing mem with
  | nil => simpa [applyMemOps] using h
  | cons op rest ih =>
      simp only [applyMemOps, List.foldl_cons]
      cases op with
      | append t x => exact ih _ (memBounded_append_item _ _ _ h)
      | merge items => exact ih _ (memBounded_merge_summary_items _ _ h)

lemma append_item_sublist (mem : List MemItem) (t x : String) (m : Nat) :
    List.Sublist (append_item mem t x m) (mem ++ [{ type := t, text := x }]) := by
  simp only [append_item]
  split
  · exact removeFirstOfType_sublist _ _ _
  · exact List.Sublist.refl _

lemma merge_summary_items_sublist (items : List MemItem) (mem : List MemItem) :
    List.Sublist (merge_summary_items mem items) (mem ++ opAppends (MemOp.merge items)) := by
  induction items generalizing mem with
  | nil => simp [merge_summary_items, opAppends]
  | cons it rest ih =>
      have hstep : merge_summary_items mem (it :: rest) =
          merge_summary_items
            (if it.type.trim.toLower ≠ "" ∧ it.text.trim ≠ "" ∧
                it.type.trim.toLower ∈ MEMORY_TYPES then
              append_item mem it.type.trim.toLower it.text.trim
                (MAX_ITEMS_PER_TYPE it.type.trim.toLower)
            else mem)
            rest := rfl
      have hOp : opAppends (MemOp.merge (it :: rest)) =
          (if it.type.trim.toLower ≠ "" ∧ it.text.trim ≠ "" ∧
              it.type.trim.toLower ∈ MEMORY_TYPES then
            [{ type := it.type.trim.toLower, text := it.text.trim }]
          else []) ++ opAppends (MemOp.merge rest) := by
        by_cases hc : it.type.trim.toLower ≠ "" ∧ it.text.trim ≠ "" ∧
            it.type.trim.toLower ∈ MEMORY_TYPES
        · simp only [opAppends, List.foldr_cons, if_pos hc, List.singleton_append]
        · simp only [opAppends, List.foldr_cons, if_neg hc, List.nil_append]
      rw [hstep, hOp]
      by_cases hc : it.type.trim.toLower ≠ "" ∧ it.text.trim ≠ "" ∧
          it.type.trim.toLower ∈ MEMORY_TYPES
      · rw [if_pos hc, if_pos hc]
        have h1 := ih (append_item mem it.type.trim.toLower it.text.trim
          (MAX_ITEMS_PER_TYPE it.type.trim.toLower))
        have h2 := (append_item_sublist mem it.type.trim.toLower it.text.trim
          (MAX_ITEMS_PER_TYPE it.type.trim.toLower)).append
          (List.Sublist.refl (opAppends (MemOp.merge rest)))
        have h3 := h1.trans h2
        simpa [List.append_assoc] using h3
      · rw [if_neg hc, if_neg hc]
        simpa using ih mem

lemma applyMemOps_sublist (ops : List MemOp) (mem : List MemItem) :
    List.Sublist (applyMemOps mem ops) (mem ++ opAppendsAll ops) := by
  induction ops generalizing mem with
  | nil => simp [applyMemOps, opAppendsAll]
  | cons op rest ih =>
      have h1 : List.Sublist (applyMemOps (applyMemOp mem op) rest)
          (applyMemOp mem op ++ opAppendsAll rest) := ih _
      have hop : List.Sublist (applyMemOp mem op) (mem ++ opAppends op) := by
        cases op with
        | append t x => exact append_item_sublist _ _ _ _
        | merge items => exact merge_summary_items_sublist _ _
      have h2 := hop.append (List.Sublist.refl (opAppendsAll rest))
      have h3 := h1.trans h2
      simpa [applyMemOps, opAppendsAll, List.append_assoc] using h3

/-- C10: over any sequence of `_append_item` / `merge_summary` operations,
(1) from a state within the per-type caps, every type stays within its
configured cap (10 jokes, 20 vocab, 10 stories, 15 facts, 15 topics); (2)
the result is a sublist of the initial list followed by the appended items,
so surviving entries keep their relative order; and (3) a single append
keeps exactly the most recent entries of its type — the oldest entries are
evicted first. -/
theorem C10_memory_per_type_caps :
    ∀ (mem : List MemItem) (ops : List MemOp),
      (memBounded mem → memBounded (applyMemOps mem ops)) ∧
        List.Sublist (applyMemOps mem ops) (mem ++ opAppendsAll ops) ∧
        ∀ (t x : String) (m : Nat),
          itemsOfType t (append_item mem t x m) =
            (itemsOfType t (mem ++ [{ type := t, text := x }])).drop
              ((itemsOfType t (mem ++ [{ type := t, text := x }])).length - m) := by
  intro mem ops
  exact ⟨memBounded_applyMemOps ops mem, applyMemOps_sublist ops mem,
    fun t x m => itemsOfType_append_item_self mem t x m⟩

/-- Witness for C10 on the empty memory and a small operation batch. -/
theorem C10_witness :
    memBounded ([] : List MemItem) ∧
      memBounded (applyMemOps []
        [MemOp.append "joke" "a", MemOp.merge [{ type := "Vocab ", text := " cat " }]]) :=
  ⟨by unfold memBounded; decide,
    (C10_memory_per_type_caps []
        [MemOp.append "joke" "a", MemOp.merge [{ type := "Vocab ", text := " cat " }]]).1
      (by unfold memBounded; decide)⟩

/-! ### Lemmas: upload pipeline (C5) -/

lemma upload_invariant (ops : List UploadOp) (st : UploadPipeline)
    (hm : st.queue.maxsize = 0) (hd : st.dropped = 0)
    (h : st.sent ++ st.queue.items = st.offered) :
    (runUploadOps st ops).queue.maxsize = 0 ∧ (runUploadOps st ops).dropped = 0 ∧
      (runUploadOps st ops).sent ++ (runUploadOps st ops).queue.items =
        (runUploadOps st ops).offered := by
  induction ops generalizing st with
  | nil => exact ⟨hm, hd, h⟩
  | cons op rest ih =>
      simp only [runUploadOps, List.foldl_cons] at *
      cases op with
      | capture f =>
          have hput : st.queue.put_nowait f =
              ({ st.queue with items := st.queue.items ++ [f] }, false) := by
            simp [PyQueue.put_nowait, hm]
          apply ih
          · simp [applyUploadOp, hput, hm]
          · simp [applyUploadOp, hput, hd]
          · simp [applyUploadOp, hput, ← h, List.append_assoc]
      | consume =>
          rcases hq : st.queue.items with _ | ⟨x, restItems⟩
          · have : applyUploadOp st UploadOp.consume = st := by
              simp [applyUploadOp, PyQueue.get_nowait, hq]
            rw [this]
            exact ih st hm hd h
          · have : applyUploadOp st UploadOp.consume =
                { st with
                  queue := { st.queue with items := restItems }
                  sent := st.sent ++ [x] } := by
              simp [applyUploadOp, PyQueue.get_nowait, hq]
            rw [this]
            apply ih
            · exact hm
            · exact hd
            · simp [List.append_assoc, ← h, hq]

/-- C5 (amended): the upload queue is created unbounded (`queue.Queue()`,
maxsize 0); the producer enqueue never blocks and never drops a frame (the
drop-with-warning branch exists but is unreachable on an unbounded queue),
and every frame is retained and sent by the consumer in the original capture
order, never duplicated or reordered: after any interleaving of capture and
consume steps, the sent frames followed by the still-queued frames are
exactly the offered frames. -/
theorem C5_upload_pipeline_order :
    ∀ ops : List UploadOp,
      (runUploadOps uploadInit ops).dropped = 0 ∧
        (runUploadOps uploadInit ops).sent ++ (runUploadOps uploadInit ops).queue.items =
          (runUploadOps uploadInit ops).offered :=
  fun ops =>
    ⟨(upload_invariant ops uploadInit rfl rfl rfl).2.1,
      (upload_invariant ops uploadInit rfl rfl rfl).2.2⟩

set_option maxRecDepth 10000 in
/-- C5 counterexample: the queue is not bounded — it is constructed with
maxsize 0 (python semantics: unbounded), and 50 consecutive enqueues all
succeed with zero frames dropped, so no capacity bound with frame-dropping
behaviour exists. -/
theorem C5_counterexample :
    audioQueueInit.maxsize = 0 ∧
      (runUploadOps uploadInit (List.replicate 50 (UploadOp.capture 7))).queue.items.length
          = 50 ∧
      (runUploadOps uploadInit (List.replicate 50 (UploadOp.capture 7))).dropped = 0 := by
  refine ⟨rfl, by decide, by decide⟩

/-! ### Lemmas: greeting-to-listening transition (C3) -/

/-- C3: from CONNECTING the connect acknowledgement yields GREETING; a
following response-done yields LISTENING, with capture started exactly once
and exactly one upload-consumer task created. -/
theorem C3_connect_greet_listen :
    ∀ cfg : Cfg,
      initState.phase = Phase.connecting ∧
        (connectStep initState).phase = Phase.greeting ∧
        (runLoop cfg (connectStep initState) [LoopEvent.msg Msg.responseDone]).phase =
          Phase.listening ∧
        (runLoop cfg (connectStep initState)
            [LoopEvent.msg Msg.responseDone]).start_recording_calls = 1 ∧
        (runLoop cfg (connectStep initState)
            [LoopEvent.msg Msg.responseDone]).upload_tasks_created = 1 := by
  intro cfg
  exact ⟨rfl, rfl, rfl, rfl, rfl⟩

/-! ### Lemmas: barge-in (C1) -/

lemma stop_playing_play_obj (m : AudioManager) : ((m.stop_playing).1).play_obj = none := by
  cases h : m.play_obj with
  | none => simp [AudioManager.stop_playing, h]
  | some p => by_cases hp : p.playing <;> simp [AudioManager.stop_playing, h, hp]

lemma stop_playing_is_playing (m : AudioManager) :
    ((m.stop_playing).1).is_playing = false := by
  simp [AudioManager.is_playing, stop_playing_play_obj]

/-- C1 counterexample: handling speech-started while the response buffer is
non-empty issues the stopPlayback call but does NOT clear the buffer — the
handler leaves `response_chunks` untouched, refuting "clears the buffer". -/
theorem C1_counterexample :
    bargeInState.response_chunks = [7] ∧
      (handleMessage cfgDemo bargeInState Msg.speechStarted).1.response_chunks = [7] ∧
      (handleMessage cfgDemo bargeInState Msg.speechStarted).1.response_chunks ≠ [] ∧
      (handleMessage cfgDemo bargeInState Msg.speechStarted).1.stop_playing_calls = 1 := by
  refine ⟨rfl, rfl, by decide, rfl⟩

/-- C1 (amended): handling speech-started while the response buffer is
non-empty issues exactly one stopPlayback call (playback is halted), leaves
the response buffer unchanged, and the buffer is cleared only by the
playback-completion poller once playback has stopped, after which a new
response accumulates into a fresh, empty buffer. -/
theorem C1_barge_in_stop_playback :
    ∀ (cfg : Cfg) (st : RunState), st.response_chunks ≠ [] →
      (handleMessage cfg st Msg.speechStarted).1.stop_playing_calls =
          st.stop_playing_calls + 1 ∧
        (handleMessage cfg st Msg.speechStarted).1.audio.is_playing = false ∧
        (handleMessage cfg st Msg.speechStarted).1.response_chunks = st.response_chunks ∧
        (playbackCompletion
          (handleMessage cfg st Msg.speechStarted).1).response_chunks = [] := by
  intro cfg st hne
  refine ⟨rfl, ?_, rfl, rfl⟩
  exact stop_playing_is_playing st.audio

/-- Witness for C1 at a listening state with one buffered chunk. -/
theorem C1_witness :
    bargeInState.response_chunks ≠ [] ∧
      ((handleMessage cfgDemo bargeInState Msg.speechStarted).1.stop_playing_calls =
          bargeInState.stop_playing_calls + 1 ∧
        (handleMessage cfgDemo bargeInState Msg.speechStarted).1.audio.is_playing = false ∧
        (handleMessage cfgDemo bargeInState Msg.speechStarted).1.response_chunks =
          bargeInState.response_chunks ∧
        (playbackCompletion
          (handleMessage cfgDemo bargeInState Msg.speechStarted).1).response_chunks = []) :=
  ⟨by decide, C1_barge_in_stop_playback cfgDemo bargeInState (by decide)⟩

/-! ### Lemmas: cleanup and loop structure (C4, C8) -/

lemma stop_recording_fields (m : AudioManager) :
    ((m.stop_recording).1).input_stream = none ∧
      ((m.stop_recording).1).play_obj = m.play_obj := by
  cases h : m.input_stream <;> simp [AudioManager.stop_recording, h]

lemma cleanup_fields (st : RunState) :
    (cleanup st).stop_recording_calls = st.stop_recording_calls + 1 ∧
      (cleanup st).audio.input_stream = none ∧
      (cleanup st).memory_saved = true ∧
      (cleanup st).upload_tasks_created = st.upload_tasks_created ∧
      (cleanup st).upload_task_cancelled =
        (st.upload_task_cancelled || decide (0 < st.upload_tasks_created)) ∧
      (cleanup st).websocket_closed = (st.websocket_closed || st.connected) ∧
      (cleanup st).is_active = st.is_active ∧
      (cleanup st).halted = st.halted ∧
      (cleanup st).connected = st.connected ∧
      (cleanup st).timeout_logged = st.timeout_logged ∧
      (cleanup st).exception_logged = st.exception_logged ∧
      (cleanup st).stop_playing_calls = st.stop_playing_calls ∧
      (cleanup st).audio.play_obj = st.audio.play_obj := by
  simp only [cleanup, RunState.doStopRecording]
  by_cases h1 : 0 < st.upload_tasks_created <;> by_cases h2 : st.connected <;>
    simp [h1, h2, (stop_recording_fields st.audio).1, (stop_recording_fields st.audio).2]

lemma loopStep_connected (cfg : Cfg) (st : RunState) (e : LoopEvent) :
    (loopStep cfg st e).connected = st.connected := by
  cases e with
  | timeout => rfl
  | exn => rfl
  | msg m =>
      cases m
      case outputAudioDelta c =>
        cases c <;>
          · simp only [loopStep, handleMessage, onOutputAudioDelta]
            split_ifs <;> rfl
      all_goals
        simp only [loopStep, handleMessage, onSpeechStarted, onSpeechStopped,
          onTranscriptionCompleted, onResponseDone, onError, playResponse,
          RunState.doStopPlaying, RunState.doStartPlaying,
          RunState.doStopRecording, RunState.doStartRecording]
      all_goals split_ifs <;> rfl

lemma runLoop_not_looping (cfg : Cfg) (st : RunState) (evs : List LoopEvent)
    (h : st.looping = false) : runLoop cfg st evs = st := by
  cases evs with
  | nil => rfl
  | cons e es => simp [runLoop, h]

lemma runLoop_append (cfg : Cfg) (l₁ l₂ : List LoopEvent) (st : RunState) :
    runLoop cfg st (l₁ ++ l₂) = runLoop cfg (runLoop cfg st l₁) l₂ := by
  induction l₁ generalizing st with
  | nil => simp [runLoop]
  | cons e es ih =>
      by_cases h : st.looping = true
      · simp only [List.cons_append, runLoop, if_pos h]
        exact ih _
      · have h0 : st.looping = false := by simpa using h
        simp only [List.cons_append, runLoop, h0]
        exact (runLoop_not_looping cfg st l₂ h0).symm

lemma runLoop_connected (cfg : Cfg) (evs : List LoopEvent) (st : RunState) :
    (runLoop cfg st evs).connected = st.connected := by
  induction evs generalizing st with
  | nil => rfl
  | cons e es ih =>
      by_cases h : st.looping = true
      · simp only [runLoop, if_pos h]
        rw [ih, loopStep_connected]
      · have h0 : st.looping = false := by simpa using h
        simp [runLoop, h0]

/-- C4 (amended): every session run — whatever mix of messages, remote error
events, goodbyes, timeouts, or send/receive exceptions its receive loop sees
— ends with cleanup executed: capture stopped (the input stream is closed),
the upload consumer task cancelled whenever one was created, the connection
closed, and memory saved; an exception raised while the loop is running is
caught and logged as the session outcome, never propagated (the loop halts
and cleanup still runs).  Playback, however, is not stopped by this
per-session cleanup. -/
theorem C4_error_cleanup :
    (∀ (cfg : Cfg) (events : List LoopEvent),
        1 ≤ (runSession cfg events).stop_recording_calls ∧
          (runSession cfg events).audio.input_stream = none ∧
          (0 < (runSession cfg events).upload_tasks_created →
            (runSession cfg events).upload_task_cancelled = true) ∧
          (runSession cfg events).websocket_closed = true ∧
          (runSession cfg events).memory_saved = true) ∧
      ∀ (cfg : Cfg) (pre : List LoopEvent),
        (runLoop cfg (connectStep initState) pre).looping = true →
          (runSession cfg (pre ++ [LoopEvent.exn])).exception_logged = true ∧
            (runSession cfg (pre ++ [LoopEvent.exn])).looping = false := by
  constructor
  · intro cfg events
    have hc := cleanup_fields (runLoop cfg (connectStep initState) events)
    have hconn : (runLoop cfg (connectStep initState) events).connected = true :=
      runLoop_connected cfg events (connectStep initState)
    refine ⟨?_, hc.2.1, ?_, ?_, hc.2.2.1⟩
    · rw [runSession] at *
      omega
    · intro h
      rw [runSession] at h ⊢
      rw [hc.2.2.2.2.1]
      rw [hc.2.2.2.1] at h
      simp [h]
    · rw [runSession]
      rw [hc.2.2.2.2.2.1, hconn]
      simp
  · intro cfg pre hpre
    have hstep : runLoop cfg (connectStep initState) (pre ++ [LoopEvent.exn]) =
        loopStep cfg (runLoop cfg (connectStep initState) pre) LoopEvent.exn := by
      rw [runLoop_append]
      simp [runLoop, hpre]
    have hc := cleanup_fields (loopStep cfg (runLoop cfg (connectStep initState) pre)
      LoopEvent.exn)
    constructor
    · rw [runSession, hstep, hc.2.2.2.2.2.2.2.2.2.2.1]
      rfl
    · rw [runSession, hstep]
      simp only [RunState.looping, hc.2.2.2.2.2.2.1, hc.2.2.2.2.2.2.2.1]
      simp [loopStep]

/-- Witness for C4: the empty loop is still running, so an immediate
exception is logged and halts the loop with cleanup run; and a session whose
greeting completed created an upload task, which cleanup cancelled. -/
theorem C4_witness :
    (runLoop cfgDemo (connectStep initState) []).looping = true ∧
      ((runSession cfgDemo ([] ++ [LoopEvent.exn])).exception_logged = true ∧
        (runSession cfgDemo ([] ++ [LoopEvent.exn])).looping = false) ∧
      0 < (runSession cfgDemo [LoopEvent.msg Msg.responseDone]).upload_tasks_created ∧
      (runSession cfgDemo [LoopEvent.msg Msg.responseDone]).upload_task_cancelled = true :=
  ⟨rfl, C4_error_cleanup.2 cfgDemo [] rfl, by decide,
    (C4_error_cleanup.1 cfgDemo [LoopEvent.msg Msg.responseDone]).2.2.1 (by decide)⟩

/-- C4 counterexample: after a listening-phase response starts playing, an
exception ends the session; cleanup runs but never calls stopPlayback, and
the playback object is still playing — refuting "playback is stopped" as
part of per-session cleanup. -/
theorem C4_counterexample :
    (runSession cfgDemo playbackTrace).stop_playing_calls = 0 ∧
      (runSession cfgDemo playbackTrace).audio.is_playing = true ∧
      (runSession cfgDemo playbackTrace).exception_logged = true := by
  exact ⟨rfl, rfl, rfl⟩

/-- C8: during greeting the receive wait is bounded by the greeting timeout
and afterwards by the conversation timeout; a timeout delivered while the
loop is running ends the session gracefully — it is logged, the session
becomes inactive (phase CLOSED), cleanup runs (capture stopped, connection
closed) — rather than raising an uncaught error. -/
theorem C8_timeout_handling :
    (∀ (cfg : Cfg) (st : RunState),
        (st.is_greeting = true → timeoutFor cfg st = cfg.greeting_timeout) ∧
          (st.is_greeting = false → timeoutFor cfg st = cfg.conversation_timeout)) ∧
      ∀ (cfg : Cfg) (pre : List LoopEvent),
        (runLoop cfg (connectStep initState) pre).looping = true →
          (runSession cfg (pre ++ [LoopEvent.timeout])).is_active = false ∧
            (runSession cfg (pre ++ [LoopEvent.timeout])).timeout_logged = true ∧
            (runSession cfg (pre ++ [LoopEvent.timeout])).phase = Phase.closed ∧
            1 ≤ (runSession cfg (pre ++ [LoopEvent.timeout])).stop_recording_calls ∧
            (runSession cfg (pre ++ [LoopEvent.timeout])).websocket_closed = true := by
  constructor
  · intro cfg st
    constructor
    · intro h
      simp [timeoutFor, h]
    · intro h
      simp [timeoutFor, h]
  · intro cfg pre hpre
    have hstep : runLoop cfg (connectStep initState) (pre ++ [LoopEvent.timeout]) =
        loopStep cfg (runLoop cfg (connectStep initState) pre) LoopEvent.timeout := by
      rw [runLoop_append]
      simp [runLoop, hpre]
    have hc := cleanup_fields (loopStep cfg (runLoop cfg (connectStep initState) pre)
      LoopEvent.timeout)
    have hconn : (loopStep cfg (runLoop cfg (connectStep initState) pre)
        LoopEvent.timeout).connected = true := by
      rw [loopStep_connected, runLoop_connected]
      rfl
    have hact : (runSession cfg (pre ++ [LoopEvent.timeout])).is_active = false := by
      rw [runSession, hstep, hc.2.2.2.2.2.2.1]
      rfl
    have htl : (runSession cfg (pre ++ [LoopEvent.timeout])).timeout_logged = true := by
      rw [runSession, hstep, hc.2.2.2.2.2.2.2.2.2.1]
      rfl
    refine ⟨hact, htl, ?_, ?_, ?_⟩
    · have hcn : (runSession cfg (pre ++ [LoopEvent.timeout])).connected = true := by
        rw [runSession, hstep, hc.2.2.2.2.2.2.2.2.1]
        exact hconn
      simp [RunState.phase, hcn, RunState.looping, hact]
    · rw [runSession, hstep]
      have := hc.1
      omega
    · rw [runSession, hstep, hc.2.2.2.2.2.1, hconn]
      simp

/-- Witness for C8 in the greeting phase with an immediate timeout. -/
theorem C8_witness :
    ((connectStep initState).is_greeting = true ∧
        timeoutFor cfgDemo (connectStep initState) = cfgDemo.greeting_timeout) ∧
      (runLoop cfgDemo (connectStep initState) []).looping = true ∧
      ((runSession cfgDemo ([] ++ [LoopEvent.timeout])).is_active = false ∧
        (runSession cfgDemo ([] ++ [LoopEvent.timeout])).timeout_logged = true ∧
        (runSession cfgDemo ([] ++ [LoopEvent.timeout])).phase = Phase.closed ∧
        1 ≤ (runSession cfgDemo ([] ++ [LoopEvent.timeout])).stop_recording_calls ∧
        (runSession cfgDemo ([] ++ [LoopEvent.timeout])).websocket_closed = true) :=
  ⟨⟨rfl, (C8_timeout_handling.1 cfgDemo (connectStep initState)).1 rfl⟩, rfl,
    C8_timeout_handling.2 cfgDemo [] rfl⟩

/-! ### Lemmas: fuzzy sleep-word matching (C2) -/

set_option maxRecDepth 100000 in
unseal Rat.mul Rat.inv Rat.add in
/-- C2: the termination-phrase matcher lowercases and strips the punctuation
characters , . ! ? from the transcript, computes the fuzzy partial-ratio
similarity against the configured sleep phrase, and reports a match exactly
when the score is at or above the threshold; for sleep phrase "good night",
input "good night!!" matches at threshold 85 and sets the terminating flag,
while "good morning" scores below 85 and does not. -/
theorem C2_sleep_word_matcher :
    (∀ (sleep_word text : List Char) (threshold : ℚ),
        is_sleep_word sleep_word text threshold = true ↔
          (text.isEmpty = false ∧ (sleep_word.map Char.toLower).isEmpty = false ∧
            threshold ≤ bestPartialRatio (sleep_word.map Char.toLower)
              (normalizeTranscript text))) ∧
      is_sleep_word "good night".toList "good night!!".toList 85 = true ∧
      is_sleep_word "good night".toList "good morning".toList 85 = false ∧
      (onTranscriptionCompleted cfgDemo listeningState
          "good night!!".toList).is_terminating = true ∧
      (onTranscriptionCompleted cfgDemo listeningState
          "good morning".toList).is_terminating = false := by
  refine ⟨?_, by decide, by decide, by decide, by decide⟩
  intro sw text th
  unfold is_sleep_word
  by_cases h1 : text.isEmpty <;> by_cases h2 : (sw.map Char.toLower).isEmpty <;>
    simp [h1, h2]

end Chocopi
